import Mathlib

/-!
Shallow embedding of the `wbinteract` Wikibase client core: the typed
value/snak data model (`wbinteract/value.py`, `wbinteract/snak.py`), the snak
multi-map (`wbinteract/snak_set.py`), statements (`wbinteract/statement.py`)
and the change-tracking entity aggregate (`wbinteract/entity.py`).

Python objects are modelled as Lean values; in-place mutation becomes explicit
state passing; code that can raise returns `Except PyErr` (or pairs the result
with an `Option PyErr` where the pre-raise state matters).  Python dicts are
modelled as insertion-ordered association lists, matching dict semantics
(unique keys, `d[k] = v` keeps the position of an existing key, new keys are
appended).
-/

set_option linter.unusedVariables false

namespace Wbinteract

/-- Python exceptions that the modelled code can raise.  `entityMissing`
stands for `wbinteract.error.EntityMissingError`. -/
inductive PyErr where
  | keyError
  | typeError
  | valueError
  | nameError
  | assertionError
  | attributeError
  | entityMissing
deriving DecidableEq, Repr

/-- The spec's `UnsupportedValueType` error: concretely, the `KeyError`
raised when `_value_from_json`'s dispatch dict is subscripted with an
unknown `"type"` discriminator. -/
def UnsupportedValueType : PyErr := .keyError

/-- The spec's `MalformedSnak` error: concretely, the bare `ValueError`
raised by `PropertySnak.from_json` on an unknown `"snaktype"`. -/
def MalformedSnak : PyErr := .valueError

/-- A `MediaWiki`/`Wikibase` site object.  The code never inspects a site
beyond identity comparison (`site is id.site`, dataclass equality), so an
opaque numeric identity suffices. -/
abbrev Site := Nat

/-- Python `decimal.Decimal` values.  The code only constructs decimals from
strings, converts them back with `str` (exact inverses in the `decimal`
module), tests truthiness and compares them numerically, so exact rationals
are a faithful carrier. -/
abbrev Dec := Rat

/-- Python floats.  The modelled code never does arithmetic on them — they
are passed through parsing and serialization untouched and compared for
equality — so an exact carrier is faithful for every claim settled here. -/
abbrev PyFloat := Rat

/-- `wbinteract.value.EntityId`: frozen dataclass, equality by (site, id). -/
structure EntityId where
  site : Site
  id : String
deriving DecidableEq, Repr

/-- JSON fragments as exchanged with the code, plus the two non-JSON shapes
Python lets leak into these dicts:

* `decStr d` is a JSON string node holding the decimal literal produced by
  `str` on the Decimal `d` (as `Quantity.to_json` does for `amount`); since
  `str` and `Decimal` are exact inverses on Decimal values the node is
  indexed by the value itself;
* `dec d` is a raw Python `Decimal` object stored unconverted in a dict
  (`Quantity.to_json` does this for the bounds). -/
inductive JVal where
  | null
  | bool (b : Bool)
  | int (n : Int)
  | float (x : PyFloat)
  | str (s : String)
  | decStr (d : Dec)
  | dec (d : Dec)
  | obj (fields : List (String × JVal))
  | arr (elems : List JVal)

namespace JVal

/-- First binding for a key in an association list (Python dict lookup). -/
def assocFind (fields : List (String × JVal)) (k : String) : Option JVal :=
  match fields with
  | [] => none
  | (k', v) :: rest => if k' = k then some v else assocFind rest k

/-- Python `d.get(k)`: `None` when the key is missing (or the receiver has
no entry); used only on dicts in the modelled code. -/
def get (j : JVal) (k : String) : Option JVal :=
  match j with
  | .obj fields => assocFind fields k
  | _ => none

/-- Python `d[k]` on a dict: `KeyError` when missing, `TypeError` when the
receiver is not subscriptable by a string key. -/
def index (j : JVal) (k : String) : Except PyErr JVal :=
  match j with
  | .obj fields =>
    match assocFind fields k with
    | some v => .ok v
    | none => .error .keyError
  | _ => .error .typeError

/-- Membership `k in d` for dicts; on other payloads the modelled code would
not reach a meaningful containment test, so it is a `TypeError`. -/
def hasKey (j : JVal) (k : String) : Except PyErr Bool :=
  match j with
  | .obj fields => .ok (assocFind fields k).isSome
  | _ => .error .typeError

/-- Coerces a JSON node the code stores into a `str`-typed slot.  The wire
payloads the code reads at these places are JSON strings. -/
def asStr (j : JVal) : Except PyErr String :=
  match j with
  | .str s => .ok s
  | _ => .error .typeError

/-- Coerces a JSON node into an `int`-typed slot. -/
def asInt (j : JVal) : Except PyErr Int :=
  match j with
  | .int n => .ok n
  | _ => .error .typeError

/-- Coerces a JSON numeric node into a float-typed slot (wire JSON may
carry either an integer or a float literal there). -/
def asFloat (j : JVal) : Except PyErr PyFloat :=
  match j with
  | .float x => .ok x
  | .int n => .ok (n : Rat)
  | _ => .error .typeError

/-- Python truthiness of a JSON node (`if lower_bound:`): `None`, zero
numbers and empty strings/containers are falsy.  A `decStr` node is a
nonempty literal string, hence truthy. -/
def truthy (j : JVal) : Bool :=
  match j with
  | .null => false
  | .bool b => b
  | .int n => n ≠ 0
  | .float x => x ≠ 0
  | .str s => s ≠ ""
  | .decStr _ => true
  | .dec d => d ≠ 0
  | .obj fields => !fields.isEmpty
  | .arr elems => !elems.isEmpty

end JVal

/-- Truthiness of the result of `d.get(k)` (`None` when absent). -/
def optTruthy (j : Option JVal) : Bool :=
  match j with
  | none => false
  | some v => v.truthy

/-- The `Decimal(x)` constructor on the shapes the modelled code feeds it:
a decimal literal string, a raw `Decimal` (identity) or an `int`. -/
def pyDecimal (j : JVal) : Except PyErr Dec :=
  match j with
  | .decStr d => .ok d
  | .dec d => .ok d
  | .int n => .ok (n : Rat)
  | _ => .error .typeError

/-- Serializes an optional raw `Decimal` the way `Quantity.to_json` leaves
the bounds in the output dict: `None` becomes JSON null, a present bound is
the unconverted `Decimal` object itself. -/
def optDecJ (d : Option Dec) : JVal :=
  match d with
  | none => .null
  | some d => .dec d

/-- Serializes an optional float field written straight into wire JSON. -/
def optFloatJ (x : Option PyFloat) : JVal :=
  match x with
  | none => .null
  | some x => .float x

/-- Serializes an optional string field written straight into wire JSON. -/
def optStrJ (s : Option String) : JVal :=
  match s with
  | none => .null
  | some s => .str s

/-- Reads a wire field that is either null or a number into an optional
float slot. -/
def JVal.asOptFloat (j : JVal) : Except PyErr (Option PyFloat) :=
  match j with
  | .null => .ok none
  | v => (v.asFloat).map some

/-- Reads a wire field that is either null or a string into an optional
string slot. -/
def JVal.asOptStr (j : JVal) : Except PyErr (Option String) :=
  match j with
  | .null => .ok none
  | v => (v.asStr).map some

/-- The bound conversion in `Quantity.from_json`:
`Decimal(b) if b else None` applied to the result of `value.get(...)`
(`None` and falsy values — including a raw `Decimal(0)` — give null). -/
def boundDec (b : Option JVal) : Except PyErr (Option Dec) :=
  match b with
  | none => .ok none
  | some v => if v.truthy then (pyDecimal v).map some else .ok none

/-- `EntityId.from_json`. -/
def EntityId.from_json (site : Site) (j : JVal) : Except PyErr EntityId :=
  match j.index "type" with
  | .error e => .error e
  | .ok (.str "wikibase-entityid") =>
    match j.index "value" with
    | .error e => .error e
    | .ok value =>
      match value.index "id" with
      | .error e => .error e
      | .ok idJ =>
        match idJ.asStr with
        | .error e => .error e
        | .ok i => .ok ⟨site, i⟩
  | .ok _ => .error .assertionError

/-- `EntityId.to_json`. -/
def EntityId.to_json (e : EntityId) : JVal :=
  .obj [("type", .str "wikibase-entityid"), ("value", .obj [("id", .str e.id)])]

/-- `wbinteract.value.MonolingualText` (frozen dataclass). -/
structure MonolingualText where
  text : String
  language : String
deriving DecidableEq, Repr

/-- `MonolingualText.from_json`. -/
def MonolingualText.from_json (site : Site) (j : JVal) : Except PyErr MonolingualText :=
  match j.index "type" with
  | .error e => .error e
  | .ok (.str "monolingualtext") =>
    match j.index "value" with
    | .error e => .error e
    | .ok value =>
      match value.index "text" with
      | .error e => .error e
      | .ok textJ =>
        match textJ.asStr with
        | .error e => .error e
        | .ok text =>
          match value.index "language" with
          | .error e => .error e
          | .ok langJ =>
            match langJ.asStr with
            | .error e => .error e
            | .ok language => .ok ⟨text, language⟩
  | .ok _ => .error .assertionError

/-- `MonolingualText.to_json`. -/
def MonolingualText.to_json (m : MonolingualText) : JVal :=
  .obj [("type", .str "monolingualtext"),
        ("value", .obj [("text", .str m.text), ("language", .str m.language)])]

/-- `wbinteract.value.GlobeCoordinate` (frozen dataclass; `precision` and
`globe` default to `None`). -/
structure GlobeCoordinate where
  latitude : PyFloat
  longitude : PyFloat
  precision : Option PyFloat
  globe : Option String
deriving DecidableEq, Repr

/-- `GlobeCoordinate.from_json`. -/
def GlobeCoordinate.from_json (site : Site) (j : JVal) : Except PyErr GlobeCoordinate :=
  match j.index "type" with
  | .error e => .error e
  | .ok (.str "globecoordinate") =>
    match j.index "value" with
    | .error e => .error e
    | .ok value =>
      match value.index "latitude" with
      | .error e => .error e
      | .ok latJ =>
        match latJ.asFloat with
        | .error e => .error e
        | .ok lat =>
          match value.index "longitude" with
          | .error e => .error e
          | .ok lonJ =>
            match lonJ.asFloat with
            | .error e => .error e
            | .ok lon =>
              match value.index "precision" with
              | .error e => .error e
              | .ok precJ =>
                match precJ.asOptFloat with
                | .error e => .error e
                | .ok prec =>
                  match value.index "globe" with
                  | .error e => .error e
                  | .ok globeJ =>
                    match globeJ.asOptStr with
                    | .error e => .error e
                    | .ok globe => .ok ⟨lat, lon, prec, globe⟩
  | .ok _ => .error .assertionError

/-- `GlobeCoordinate.to_json`. -/
def GlobeCoordinate.to_json (g : GlobeCoordinate) : JVal :=
  .obj [("type", .str "globecoordinate"),
        ("value", .obj [("latitude", .float g.latitude),
                        ("longitude", .float g.longitude),
                        ("precision", optFloatJ g.precision),
                        ("globe", optStrJ g.globe)])]

/-- `wbinteract.value.Quantity` (frozen dataclass). -/
structure Quantity where
  amount : Dec
  unit : String
  upper_bound : Option Dec
  lower_bound : Option Dec
deriving DecidableEq, Repr

/-- `Quantity.from_json`.  Note the bounds: the source looks up the
misspelled key `"uppperBound"` (sic, three p's), while `Quantity.to_json`
writes `"upperBound"`. -/
def Quantity.from_json (site : Site) (j : JVal) : Except PyErr Quantity :=
  match j.index "type" with
  | .error e => .error e
  | .ok (.str "quantity") =>
    match j.index "value" with
    | .error e => .error e
    | .ok value =>
      let ub := value.get "uppperBound"
      let lb := value.get "lowerBound"
      match value.index "amount" with
      | .error e => .error e
      | .ok amountJ =>
        match pyDecimal amountJ with
        | .error e => .error e
        | .ok amount =>
          match value.index "unit" with
          | .error e => .error e
          | .ok unitJ =>
            match unitJ.asStr with
            | .error e => .error e
            | .ok unit =>
              match boundDec ub with
              | .error e => .error e
              | .ok ubD =>
                match boundDec lb with
                | .error e => .error e
                | .ok lbD => .ok ⟨amount, unit, ubD, lbD⟩
  | .ok _ => .error .assertionError

/-- `Quantity.to_json`: `amount` is serialized with `str`, the bounds are
written into the dict as the raw `Decimal` objects (or `None`). -/
def Quantity.to_json (q : Quantity) : JVal :=
  .obj [("type", .str "quantity"),
        ("value", .obj [("amount", .decStr q.amount),
                        ("unit", .str q.unit),
                        ("lowerBound", optDecJ q.lower_bound),
                        ("upperBound", optDecJ q.upper_bound)])]

/-- `wbinteract.value.Time` (frozen dataclass with a custom constructor,
modelled by `Time.init` below). -/
structure Time where
  time : String
  precision : Int
  calendar_model : String
deriving DecidableEq, Repr

/-- The Gregorian calendar model URI (`Time.GREGORIAN`). -/
def Time.GREGORIAN : String := "http://www.wikidata.org/entity/Q1985727"

/-- The Julian calendar model URI (`Time.JULIAN`). -/
def Time.JULIAN : String := "http://www.wikidata.org/entity/Q1985786"

/-- Splits a character list into its longest digit prefix and the rest
(the maximal-munch reading of a greedy `\d+`; exact here because a digit
never matches the delimiters that follow it in the patterns below). -/
def spanDigits : List Char → List Char × List Char
  | [] => ([], [])
  | c :: cs =>
    if c.isDigit then
      let (d, r) := spanDigits cs
      (c :: d, r)
    else ([], c :: cs)

/-- Matches the regex fragment `\d+-\d+-\d+` at the start of the input,
returning the consumed characters and the remainder. -/
def matchDateBody (cs : List Char) : Option (List Char × List Char) :=
  let (d1, r1) := spanDigits cs
  if d1.isEmpty then none else
  match r1 with
  | '-' :: r2 =>
    let (d2, r3) := spanDigits r2
    if d2.isEmpty then none else
    match r3 with
    | '-' :: r4 =>
      let (d3, r5) := spanDigits r4
      if d3.isEmpty then none else
      some (d1 ++ '-' :: d2 ++ '-' :: d3, r5)
    | _ => none
  | _ => none

/-- Matches exactly two digits at the start of the input, returning the
remainder. -/
def matchTwoDigits (cs : List Char) : Option (List Char) :=
  match cs with
  | a :: b :: r => if a.isDigit && b.isDigit then some r else none
  | _ => none

/-- Prefix match of `([-+]\d+-\d+-\d+)T\d{2}:\d{2}:\d{2}Z` as in
`Time.from_json`, returning group 1 (`re.match` anchors only at the start,
so trailing characters are permitted). -/
def matchWireTime (cs : List Char) : Option String :=
  match cs with
  | sign :: rest =>
    if sign = '+' ∨ sign = '-' then
      match matchDateBody rest with
      | some (body, 'T' :: r1) =>
        match matchTwoDigits r1 with
        | some (':' :: r2) =>
          match matchTwoDigits r2 with
          | some (':' :: r3) =>
            match matchTwoDigits r3 with
            | some ('Z' :: _) => some (String.mk (sign :: body))
            | _ => none
          | _ => none
        | _ => none
      | _ => none
    else none
  | [] => none

/-- `Time.__init__`: asserts `re.match("[-+]?\d+-\d+-\d+", time)` — a
prefix match, so trailing characters after the date are allowed — then
prefixes a sign-less time string with "+". -/
def Time.init (time : String) (precision : Int) (calendar_model : String) : Except PyErr Time :=
  let cs := time.toList
  let matched :=
    match cs with
    | c :: rest =>
      if c = '+' ∨ c = '-' then (matchDateBody rest).isSome else (matchDateBody cs).isSome
    | [] => false
  if matched then
    let signed :=
      match cs with
      | c :: _ => if c = '+' ∨ c = '-' then time else "+" ++ time
      | [] => time
    .ok ⟨signed, precision, calendar_model⟩
  else .error .assertionError

/-- `Time.from_json`: extracts the date component of the wire time string
(the note in the source says hours, minutes and seconds are discarded) and
feeds it back through the constructor.  When the regex does not match,
`re.match` returns `None` and the `[1]` subscript raises `TypeError`. -/
def Time.from_json (site : Site) (j : JVal) : Except PyErr Time :=
  match j.index "type" with
  | .error e => .error e
  | .ok (.str "time") =>
    match j.index "value" with
    | .error e => .error e
    | .ok value =>
      match value.index "time" with
      | .error e => .error e
      | .ok timeJ =>
        match timeJ.asStr with
        | .error e => .error e
        | .ok s =>
          match matchWireTime s.toList with
          | none => .error .typeError
          | some date =>
            match value.index "precision" with
            | .error e => .error e
            | .ok precJ =>
              match precJ.asInt with
              | .error e => .error e
              | .ok prec =>
                match value.index "calendarmodel" with
                | .error e => .error e
                | .ok calJ =>
                  match calJ.asStr with
                  | .error e => .error e
                  | .ok cal => Time.init date prec cal
  | .ok _ => .error .assertionError

/-- `Time.to_json`: re-emits midnight UTC. -/
def Time.to_json (t : Time) : JVal :=
  .obj [("type", .str "time"),
        ("value", .obj [("time", .str (t.time ++ "T00:00:00Z")),
                        ("precision", .int t.precision),
                        ("calendarmodel", .str t.calendar_model),
                        ("timezone", .int 0),
                        ("before", .int 0),
                        ("after", .int 0)])]

/-- The closed set of datavalue variants (`string` datavalues are bare
Python strings in the source; the others are the dataclasses above). -/
inductive Value where
  | str (s : String)
  | entity (e : EntityId)
  | mono (m : MonolingualText)
  | globe (g : GlobeCoordinate)
  | quantity (q : Quantity)
  | time (t : Time)
deriving DecidableEq, Repr

/-- `wbinteract.value._value_from_json`: a dict of constructors keyed by the
wire `"type"` discriminator.  An unknown string tag misses the dict and
raises `KeyError` (the spec's `UnsupportedValueType`); an unhashable tag
(list/dict) raises `TypeError`. -/
def valueFromJson (site : Site) (j : JVal) : Except PyErr Value :=
  match j.index "type" with
  | .error e => .error e
  | .ok t =>
    match t with
    | .obj _ => .error .typeError
    | .arr _ => .error .typeError
    | .str tag =>
      if tag = "string" then
        match j.index "value" with
        | .error e => .error e
        | .ok v => (v.asStr).map Value.str
      else if tag = "wikibase-entityid" then (EntityId.from_json site j).map Value.entity
      else if tag = "monolingualtext" then (MonolingualText.from_json site j).map Value.mono
      else if tag = "globecoordinate" then (GlobeCoordinate.from_json site j).map Value.globe
      else if tag = "quantity" then (Quantity.from_json site j).map Value.quantity
      else if tag = "time" then (Time.from_json site j).map Value.time
      else .error UnsupportedValueType
    | _ => .error UnsupportedValueType

/-- The snak taxonomy of `wbinteract/snak.py`: `PropertyValueSnak`,
`PropertyNoValueSnak` and `PropertySomeValueSnak`.  Equality is the
structural equality the three classes define with `__eq__`. -/
inductive Snak where
  | val (p : EntityId) (value : Value)
  | novalue (p : EntityId)
  | somevalue (p : EntityId)
deriving DecidableEq, Repr

/-- The `p` property shared by all snaks. -/
def Snak.p : Snak → EntityId
  | .val p _ => p
  | .novalue p => p
  | .somevalue p => p

/-- `PropertySnak.__init__`: asserts that the property is an `EntityId`
whose id starts with "P". -/
def snakInitCheck (p : EntityId) : Except PyErr Unit :=
  if p.id.startsWith "P" then .ok () else .error .assertionError

/-- `PropertyValueSnak.to_json`'s datavalue: a bare Python string gets the
wire type `"string"`, every other value serializes itself. -/
def Value.datavalueJson : Value → JVal
  | .str s => .obj [("type", .str "string"), ("value", .str s)]
  | .entity e => e.to_json
  | .mono m => m.to_json
  | .globe g => g.to_json
  | .quantity q => q.to_json
  | .time t => t.to_json

/-- `to_json` of the three snak classes. -/
def Snak.to_json : Snak → JVal
  | .val p v =>
    .obj [("snaktype", .str "value"), ("property", .str p.id),
          ("datavalue", v.datavalueJson)]
  | .novalue p => .obj [("snaktype", .str "novalue"), ("property", .str p.id)]
  | .somevalue p => .obj [("snaktype", .str "somevalue"), ("property", .str p.id)]

/-- `PropertyValueSnak.from_json`. -/
def PropertyValueSnak.from_json (site : Site) (j : JVal) : Except PyErr Snak :=
  match j.index "snaktype" with
  | .error e => .error e
  | .ok (.str "value") =>
    match j.index "property" with
    | .error e => .error e
    | .ok propJ =>
      match propJ.asStr with
      | .error e => .error e
      | .ok prop =>
        match j.index "datavalue" with
        | .error e => .error e
        | .ok dv =>
          match valueFromJson site dv with
          | .error e => .error e
          | .ok v =>
            match snakInitCheck ⟨site, prop⟩ with
            | .error e => .error e
            | .ok _ => .ok (.val ⟨site, prop⟩ v)
  | .ok _ => .error .assertionError

/-- `PropertyNoValueSnak.from_json`. -/
def PropertyNoValueSnak.from_json (site : Site) (j : JVal) : Except PyErr Snak :=
  match j.index "snaktype" with
  | .error e => .error e
  | .ok (.str "novalue") =>
    match j.index "property" with
    | .error e => .error e
    | .ok propJ =>
      match propJ.asStr with
      | .error e => .error e
      | .ok prop =>
        match snakInitCheck ⟨site, prop⟩ with
        | .error e => .error e
        | .ok _ => .ok (.novalue ⟨site, prop⟩)
  | .ok _ => .error .assertionError

/-- `PropertySomeValueSnak.from_json`. -/
def PropertySomeValueSnak.from_json (site : Site) (j : JVal) : Except PyErr Snak :=
  match j.index "snaktype" with
  | .error e => .error e
  | .ok (.str "somevalue") =>
    match j.index "property" with
    | .error e => .error e
    | .ok propJ =>
      match propJ.asStr with
      | .error e => .error e
      | .ok prop =>
        match snakInitCheck ⟨site, prop⟩ with
        | .error e => .error e
        | .ok _ => .ok (.somevalue ⟨site, prop⟩)
  | .ok _ => .error .assertionError

/-- `PropertySnak.from_json`: static dispatch on `"snaktype"`.  The `if` /
`elif` chain compares `json["snaktype"]` with the three literals; anything
else — including a non-string — falls through to a bare `ValueError` (the
spec's `MalformedSnak`). -/
def PropertySnak.from_json (site : Site) (j : JVal) : Except PyErr Snak :=
  match j.index "snaktype" with
  | .error e => .error e
  | .ok t =>
    match t with
    | .str tag =>
      if tag = "value" then PropertyValueSnak.from_json site j
      else if tag = "novalue" then PropertyNoValueSnak.from_json site j
      else if tag = "somevalue" then PropertySomeValueSnak.from_json site j
      else .error MalformedSnak
    | _ => .error MalformedSnak

/-- First binding for a key in a Python-dict-modelling association list. -/
def dictFind {κ β : Type} [DecidableEq κ] : List (κ × β) → κ → Option β
  | [], _ => none
  | (k', v) :: rest, k => if k' = k then some v else dictFind rest k

/-- `d[k] = v` on a dict: replaces the value at an existing key in place,
appends a new key at the end. -/
def dictSet {κ β : Type} [DecidableEq κ] : List (κ × β) → κ → β → List (κ × β)
  | [], k, v => [(k, v)]
  | (k', v') :: rest, k, v =>
    if k' = k then (k', v) :: rest else (k', v') :: dictSet rest k v

/-- `del d[k]`: removes the binding, `KeyError` when the key is absent. -/
def dictDel {κ β : Type} [DecidableEq κ] : List (κ × β) → κ → Except PyErr (List (κ × β))
  | [], _ => .error .keyError
  | (k', v') :: rest, k =>
    if k' = k then .ok rest
    else
      match dictDel rest k with
      | .error e => .error e
      | .ok rest' => .ok ((k', v') :: rest')

/-- `list.remove`: removes the first element equal (`==`) to the argument,
`ValueError` when there is no match. -/
def listRemoveFirst {α : Type} [DecidableEq α] : List α → α → Except PyErr (List α)
  | [], _ => .error .valueError
  | x :: rest, y =>
    if x = y then .ok rest
    else
      match listRemoveFirst rest y with
      | .error e => .error e
      | .ok rest' => .ok (x :: rest')

/-- `wbinteract.snak_set.SnakSet`: a `defaultdict(list)` from property ids
to insertion-ordered groups.  The container is used with snak elements
(qualifiers, reference records) and with statements (`Claims`); the `pOf`
argument of the operations below names each element's `.p` property. -/
structure SnakSet (α : Type) where
  site : Site
  store : List (EntityId × List α)
deriving DecidableEq

namespace SnakSet

/-- `defaultdict.__getitem__` on the backing store: a missing key is
inserted with a fresh empty list.  Returns the group and the possibly
extended store. -/
def ddGet {α : Type} (store : List (EntityId × List α)) (k : EntityId) :
    List α × List (EntityId × List α) :=
  match dictFind store k with
  | some g => (g, store)
  | none => ([], store ++ [(k, [])])

/-- The group currently stored under a key (empty when absent); a read-only
helper for stating properties. -/
def group {α : Type} (s : SnakSet α) (k : EntityId) : List α :=
  (dictFind s.store k).getD []

/-- `SnakSet.__iter__` materialized: all elements across all properties,
insertion order within each group, groups in first-insertion order. -/
def toList {α : Type} (s : SnakSet α) : List α :=
  (s.store.map Prod.snd).flatten

/-- `SnakSet.__len__`: the sum of the group lengths. -/
def size {α : Type} (s : SnakSet α) : Nat :=
  (s.store.map (fun g => g.2.length)).sum

/-- `SnakSet.__contains__`: `elem in self._store[elem.p]` — the defaultdict
subscript inserts an empty group when the property key is absent.  Returns
the membership answer and the possibly extended set. -/
def contains {α : Type} [DecidableEq α] (pOf : α → EntityId) (s : SnakSet α) (elem : α) :
    Bool × SnakSet α :=
  let (g, st) := ddGet s.store (pOf elem)
  (decide (elem ∈ g), ⟨s.site, st⟩)

/-- `SnakSet.add`: a no-op when an equal element is already stored for the
property; otherwise appends to the property's group and calls `_notify()`
with no sub-key.  The boolean records whether the notification ran. -/
def add {α : Type} [DecidableEq α] (pOf : α → EntityId) (s : SnakSet α) (elem : α) :
    SnakSet α × Bool :=
  let (mem, s1) := contains pOf s elem
  if mem then (s1, false)
  else
    let (g, st) := ddGet s1.store (pOf elem)
    (⟨s1.site, dictSet st (pOf elem) (g ++ [elem])⟩, true)

/-- `SnakSet.remove`: `self._store[elem.p].remove(elem)` then `_notify()`
(the defaultdict subscript first inserts an empty group when the key is
absent, after which `list.remove` raises `ValueError`).  The boolean records
that the notification ran. -/
def remove {α : Type} [DecidableEq α] (pOf : α → EntityId) (s : SnakSet α) (elem : α) :
    Except PyErr (SnakSet α × Bool) :=
  let (g, st) := ddGet s.store (pOf elem)
  match listRemoveFirst g elem with
  | .error e => .error e
  | .ok g' => .ok (⟨s.site, dictSet st (pOf elem) g'⟩, true)

/-- `SnakSet.from_iterable`: appends every element to its property group,
without the `add` uniqueness check. -/
def from_iterable {α : Type} (pOf : α → EntityId) (site : Site) (iterable : List α) :
    SnakSet α :=
  iterable.foldl
    (fun s elem =>
      let (g, st) := ddGet s.store (pOf elem)
      ⟨s.site, dictSet st (pOf elem) (g ++ [elem])⟩)
    ⟨site, []⟩

/-- `SnakSet.to_json`: serializes the iteration order. -/
def to_json (s : SnakSet Snak) : JVal :=
  .arr ((toList s).map Snak.to_json)

/-- `itertools.chain.from_iterable(json_snak_dict.values())`: concatenates
the dict's values, each of which must be a list. -/
def jsonGroups : List (String × JVal) → Except PyErr (List JVal)
  | [] => .ok []
  | (_, v) :: rest =>
    match v with
    | .arr elems => (jsonGroups rest).map (elems ++ ·)
    | _ => .error .typeError

/-- `SnakSet._update_from_json`: resets the store and appends `factory(x)`
for every snak JSON `x` chained from the dict's values.  (A parse error in
Python would leave the partially rebuilt store in place; the claims settled
here exercise only the fully successful path, so the rebuild is modelled
all-or-nothing.) -/
def updateFromJson {α : Type} (pOf : α → EntityId) (site : Site) (j : JVal)
    (factory : JVal → Except PyErr α) : Except PyErr (SnakSet α) :=
  match j with
  | .obj fields =>
    match jsonGroups fields with
    | .error e => .error e
    | .ok snakJsons =>
      match snakJsons.mapM factory with
      | .error e => .error e
      | .ok elems => .ok (from_iterable pOf site elems)
  | _ => .error .attributeError

/-- `SnakSet.p(id)`: coerces the argument with `EntityId._from_str_or_id`
and hands it to the view.  In this functional model a view is the property
id, read against the parent set passed at each query — which is exactly the
claimed liveness. -/
def pView {α : Type} (s : SnakSet α) (id : String) : EntityId :=
  ⟨s.site, id⟩

/-- `SnaksView.__iter__`: `iter(self._snaks._store[self._id])` — computed
from the parent's current store; the defaultdict subscript inserts an empty
group when the key is absent. -/
def viewToList {α : Type} (s : SnakSet α) (id : EntityId) : List α × SnakSet α :=
  let (g, st) := ddGet s.store id
  (g, ⟨s.site, st⟩)

/-- `SnaksView.__len__`: `len(self._snaks._store[self._id])`. -/
def viewLen {α : Type} (s : SnakSet α) (id : EntityId) : Nat × SnakSet α :=
  let (g, st) := ddGet s.store id
  (g.length, ⟨s.site, st⟩)

/-- Subscripting a `SnakSet` itself (`snaks[key]`): the class derives from
`collections.abc.MutableSet`, which defines no `__getitem__`, so every
subscript raises `TypeError`. -/
def subscript {α : Type} (s : SnakSet α) (k : EntityId) : Except PyErr (List α) :=
  .error .typeError

/-- `SnaksView.__contains__`: `return elem in self._snaks[elem.p]` — it
subscripts the parent `SnakSet` object itself (not its backing store), so
the test raises before any membership check happens. -/
def viewContains {α : Type} [DecidableEq α] (pOf : α → EntityId) (s : SnakSet α)
    (id : EntityId) (elem : α) : Except PyErr Bool :=
  match subscript s (pOf elem) with
  | .error e => .error e
  | .ok g => .ok (decide (elem ∈ g))

end SnakSet

/-- `wbinteract.statement.Rank`. -/
inductive Rank where
  | preferred
  | normal
  | deprecated
deriving DecidableEq, Repr

/-- `Rank(value)` on the wire string; an unknown value raises `ValueError`. -/
def Rank.ofWire (j : JVal) : Except PyErr Rank :=
  match j with
  | .str "preferred" => .ok .preferred
  | .str "normal" => .ok .normal
  | .str "deprecated" => .ok .deprecated
  | _ => .error .valueError

/-- `rank.value`: the wire string of a rank. -/
def Rank.toWire : Rank → String
  | .preferred => "preferred"
  | .normal => "normal"
  | .deprecated => "deprecated"

/-- `wbinteract.statement.ReferenceRecord`: a `SnakSet` subclass carrying an
optional server-assigned hash. -/
structure ReferenceRecord where
  hash : Option String
  snaks : SnakSet Snak
deriving DecidableEq

/-- `ReferenceRecord.to_json`: the hash is appended after the snaks when
present. -/
def ReferenceRecord.to_json (r : ReferenceRecord) : JVal :=
  let snaks := SnakSet.to_json r.snaks
  match r.hash with
  | some h => .obj [("snaks", snaks), ("hash", .str h)]
  | none => .obj [("snaks", snaks)]

/-- `wbinteract.statement.Statement`.  `id` is `None` until the server
assigns one. -/
structure Statement where
  site : Site
  id : Option String
  mainsnak : Snak
  rank : Rank
  qualifiers : SnakSet Snak
  references : List ReferenceRecord
deriving DecidableEq

/-- `Statement.p`: the property of the main snak. -/
def Statement.p (st : Statement) : EntityId :=
  st.mainsnak.p

/-- `References.from_iterable`: iterates the argument and runs
`record._attach(self._notify)` in the loop body — but `self` is not bound
inside the static method, so the first iteration raises `NameError`, and
iterating `None` raises `TypeError` even earlier.  Only an empty iterable
returns, and then the result holds no records at all. -/
def References.from_iterable {α : Type} (site : Site) (iterable : Option (List α)) :
    Except PyErr (List ReferenceRecord) :=
  match iterable with
  | none => .error .typeError
  | some [] => .ok []
  | some (_ :: _) => .error .nameError

/-- `Statement.__init__`.  The references branch passes `qualifiers` — not
`references` — to `References.from_iterable`, so the `references` argument
is only ever tested against `None`, never read. -/
def Statement.init (site : Site) (mainsnak : Snak) (rank : Rank)
    (qualifiers : Option (List Snak)) (references : Option (List ReferenceRecord))
    (id : Option String) : Except PyErr Statement :=
  let quals : SnakSet Snak :=
    match qualifiers with
    | none => ⟨site, []⟩
    | some l => SnakSet.from_iterable Snak.p site l
  match references with
  | none => .ok ⟨site, id, mainsnak, rank, quals, []⟩
  | some _ =>
    match References.from_iterable site qualifiers with
    | .error e => .error e
    | .ok refs => .ok ⟨site, id, mainsnak, rank, quals, refs⟩

/-- The `value` argument of `Wikibase.snak`: a datavalue, or one of the
`NoValue` / `SomeValue` sentinels from `wbinteract.util`. -/
inductive SnakArg where
  | noValueSentinel
  | someValueSentinel
  | value (v : Value)
deriving DecidableEq

/-- `Wikibase.snak`: coerces `p` with `EntityId._from_str_or_id` and builds
the matching snak class; the shared base constructor asserts the property
id starts with "P". -/
def Wikibase.snak (site : Site) (p : String) (value : SnakArg) : Except PyErr Snak :=
  let pid : EntityId := ⟨site, p⟩
  match snakInitCheck pid with
  | .error e => .error e
  | .ok _ =>
    .ok (match value with
         | .noValueSentinel => .novalue pid
         | .someValueSentinel => .somevalue pid
         | .value v => .val pid v)

/-- `Wikibase.claim`: defaults the rank to `NORMAL`, builds the main snak,
and hands every argument on to the `Statement` constructor. -/
def Wikibase.claim (site : Site) (p : String) (value : SnakArg) (rank : Option Rank)
    (qualifiers : Option (List Snak)) (references : Option (List ReferenceRecord)) :
    Except PyErr Statement :=
  let rank := rank.getD .normal
  match Wikibase.snak site p value with
  | .error e => .error e
  | .ok mainsnak => Statement.init site mainsnak rank qualifiers references none

/-- `Statement.to_json`: a server-assigned id is appended last. -/
def Statement.to_json (st : Statement) : JVal :=
  let base := [("type", .str "statement"),
               ("mainsnak", st.mainsnak.to_json),
               ("rank", .str st.rank.toWire),
               ("qualifiers", SnakSet.to_json st.qualifiers),
               ("references", .arr (st.references.map ReferenceRecord.to_json))]
  match st.id with
  | some i => .obj (base ++ [("id", .str i)])
  | none => .obj base

/-- One record inside `References._update_from_json`: requires the wire
`"hash"` key, then fills the record's snak set from `json_record["snaks"]`. -/
def ReferenceRecord.parseWire (site : Site) (j : JVal) : Except PyErr ReferenceRecord :=
  match j.index "hash" with
  | .error e => .error e
  | .ok hashJ =>
    match hashJ.asStr with
    | .error e => .error e
    | .ok h =>
      match j.index "snaks" with
      | .error e => .error e
      | .ok snaksJ =>
        match SnakSet.updateFromJson Snak.p site snaksJ (PropertySnak.from_json site) with
        | .error e => .error e
        | .ok s => .ok ⟨some h, s⟩

/-- `References._update_from_json`: appends one parsed record per wire
entry (callers always invoke it on an empty `References`). -/
def References.updateFromJson (site : Site) (j : JVal) :
    Except PyErr (List ReferenceRecord) :=
  match j with
  | .arr elems => elems.mapM (ReferenceRecord.parseWire site)
  | _ => .error .typeError

/-- `Statement.from_json`: parses mainsnak, rank and id, builds the
statement through the constructor (with `qualifiers=None, references=None`,
so the buggy references branch is not taken), then refills qualifiers and
references from the wire JSON. -/
def Statement.from_json (site : Site) (j : JVal) : Except PyErr Statement :=
  match j.index "type" with
  | .error e => .error e
  | .ok t =>
    match t with
    | .str "statement" =>
      match j.index "mainsnak" with
      | .error e => .error e
      | .ok msJ =>
        match PropertySnak.from_json site msJ with
        | .error e => .error e
        | .ok mainsnak =>
          match j.index "rank" with
          | .error e => .error e
          | .ok rankJ =>
            match Rank.ofWire rankJ with
            | .error e => .error e
            | .ok rank =>
              match j.index "id" with
              | .error e => .error e
              | .ok idJ =>
                match idJ.asStr with
                | .error e => .error e
                | .ok i =>
                  match Statement.init site mainsnak rank none none (some i) with
                  | .error e => .error e
                  | .ok st =>
                    match SnakSet.updateFromJson Snak.p site
                        ((j.get "qualifiers").getD (.obj []))
                        (PropertySnak.from_json site) with
                    | .error e => .error e
                    | .ok quals =>
                      match References.updateFromJson site
                          ((j.get "references").getD (.arr [])) with
                      | .error e => .error e
                      | .ok refs =>
                        .ok { st with qualifiers := quals, references := refs }
    | _ => .error .assertionError

/-- The entity root's `_unsaved_changes`: an auto-vivified tree of dirty
markers keyed by path segments.  Only presence is recorded. -/
inductive Dirty where
  | node (children : List (String × Dirty))

/-- The children of a dirty node. -/
def Dirty.children : Dirty → List (String × Dirty)
  | .node cs => cs

/-- The sub-keys recorded under a dirty node, in insertion order. -/
def Dirty.keys (d : Dirty) : List String :=
  d.children.map Prod.fst

/-- `Entity._notify(*changed_aspect)`: walks the tree with
`setdefault(segment, dict())`, creating missing nodes and leaving existing
ones (and their position) in place. -/
def Dirty.setdefaultPath : List String → Dirty → Dirty
  | [], d => d
  | k :: rest, .node cs =>
    let child := (dictFind cs k).getD (.node [])
    .node (dictSet cs k (Dirty.setdefaultPath rest child))

/-- `wbinteract.entity.AliasSet`: a per-language set of alias strings.
Python sets have no specified iteration order; the model keeps a duplicate
free list, which no claim settled here observes beyond membership. -/
structure AliasSet where
  language : String
  store : List String
deriving DecidableEq

/-- The `elem["value"]` projection used by `AliasSet._from_json`. -/
def aliasValue (e : JVal) : Except PyErr String :=
  match e.index "value" with
  | .error er => .error er
  | .ok v => v.asStr

/-- `AliasSet._from_json`: collects `elem["value"]` of every wire entry
into the set. -/
def AliasSet.fromWire (language : String) (j : JVal) : Except PyErr AliasSet :=
  match j with
  | .arr elems =>
    match elems.mapM aliasValue with
    | .error e => .error e
    | .ok vals => .ok ⟨language, vals.dedup⟩
  | _ => .error .typeError

/-- `_changes_to_json` of `Labels` (and of `Descriptions`, which duplicates
the code verbatim): dirty keys present in the store render as updates, in
dirty order; dirty keys missing from the store render as removals,
appended after the updates. -/
def langMapChanges (store : List (String × String)) (changed : List String) : JVal :=
  .arr ((changed.filterMap fun lang =>
           (dictFind store lang).map fun v =>
             JVal.obj [("language", .str lang), ("value", .str v)])
        ++ changed.filterMap fun lang =>
             if (dictFind store lang).isSome then none
             else some (JVal.obj [("language", .str lang), ("remove", .str "")]))

/-- `Aliases._changes_to_json`: for every dirty language, every dirty alias
sub-key renders as an update when present in the current alias set and as a
removal otherwise.  (`self[lang]` in the source auto-vivifies a missing
language with an empty set; membership in that empty set is false, which
the plain lookup below reproduces — the store mutation it omits is
overwritten by the response refresh immediately afterwards.) -/
def aliasesChanges (store : List (String × AliasSet)) (changed : Dirty) : JVal :=
  .arr ((changed.children.map fun ls =>
           ls.2.keys.map fun a =>
             if a ∈ ((dictFind store ls.1).map AliasSet.store).getD [] then
               JVal.obj [("language", .str ls.1), ("value", .str a)]
             else
               JVal.obj [("language", .str ls.1), ("value", .str a),
                         ("remove", .str "")]).flatten)

/-- The rendering loop of `Claims._changes_to_json`: a statement with no id
is always emitted in full; one whose id is among the remaining dirty ids is
emitted in full and consumes its id (`changed_claims.remove`); all other
statements are skipped.  Returns the rendered statements and the leftover
dirty ids. -/
def claimsFold : List Statement → List String → List JVal × List String
  | [], ids => ([], ids)
  | c :: rest, ids =>
    match c.id with
    | none =>
      let (out, ids') := claimsFold rest ids
      (c.to_json :: out, ids')
    | some i =>
      if i ∈ ids then
        let (out, ids') := claimsFold rest (ids.erase i)
        (c.to_json :: out, ids')
      else claimsFold rest ids

/-- `Claims._changes_to_json`: dirty ids (minus the literal key "new") not
matched by any live statement render as removal entries after the loop. -/
def Claims.changesToJson (claims : SnakSet Statement) (changed : List String) : JVal :=
  let changedClaims := changed.filter (fun k => k ≠ "new")
  let (out, leftover) := claimsFold (SnakSet.toList claims) changedClaims
  .arr (out ++ leftover.map fun i => JVal.obj [("id", .str i), ("remove", .str "")])

/-- The claims factory in `Claims._update_from_json`: parses the statement,
then evaluates `json["id"]` for the listener sub-key the parsed statement
is attached with. -/
def Claims.factory (site : Site) (j : JVal) : Except PyErr Statement :=
  match Statement.from_json site j with
  | .error e => .error e
  | .ok st =>
    match j.index "id" with
    | .error e => .error e
    | .ok _ => .ok st

/-- `Claims._update_from_json`. -/
def Claims.updateFromJson (site : Site) (j : JVal) : Except PyErr (SnakSet Statement) :=
  SnakSet.updateFromJson Statement.p site j (Claims.factory site)

/-- `Labels._update_from_json` (and `Descriptions`' verbatim copy): store
the `value` field of every wire entry under its language. -/
def langMapUpdate (j : JVal) : Except PyErr (List (String × String)) :=
  match j with
  | .obj fields =>
    fields.mapM fun kv =>
      match kv.2.index "value" with
      | .error e => .error e
      | .ok v =>
        match v.asStr with
        | .error e => .error e
        | .ok s => .ok (kv.1, s)
  | _ => .error .attributeError

/-- `Aliases._update_from_json`. -/
def Aliases.updateFromJson (j : JVal) : Except PyErr (List (String × AliasSet)) :=
  match j with
  | .obj fields =>
    fields.mapM fun kv => (AliasSet.fromWire kv.1 kv.2).map (fun a => (kv.1, a))
  | _ => .error .attributeError

/-- The state of an `Item` (a `Property` wires the same four parts): the
part stores, the raw server snapshot, and the root's dirty-marker tree. -/
structure Item where
  site : Site
  id : Option String
  labels : List (String × String)
  descriptions : List (String × String)
  aliases : List (String × AliasSet)
  claims : SnakSet Statement
  data : Option JVal
  unsavedChanges : Dirty

/-- `Entity._update_from_json`: stores the raw data and refreshes every
part from `data[key]` in part-insertion order (labels, descriptions,
aliases, claims).  `_unsaved_changes` is not touched.  (A `KeyError` midway
would leave Python's object partially refreshed; the claims settled here
exercise only the raise-before-update and fully successful paths, so the
refresh is modelled all-or-nothing.) -/
def Item.updateFromJson (it : Item) (data : JVal) : Except PyErr Item :=
  match data.index "labels" with
  | .error e => .error e
  | .ok labelsJ =>
    match langMapUpdate labelsJ with
    | .error e => .error e
    | .ok labels =>
      match data.index "descriptions" with
      | .error e => .error e
      | .ok descrJ =>
        match langMapUpdate descrJ with
        | .error e => .error e
        | .ok descriptions =>
          match data.index "aliases" with
          | .error e => .error e
          | .ok aliasesJ =>
            match Aliases.updateFromJson aliasesJ with
            | .error e => .error e
            | .ok aliases =>
              match data.index "claims" with
              | .error e => .error e
              | .ok claimsJ =>
                match Claims.updateFromJson it.site claimsJ with
                | .error e => .error e
                | .ok claims =>
                  .ok { it with data := some data, labels := labels,
                                descriptions := descriptions, aliases := aliases,
                                claims := claims }

/-- `Entity.fetch` run against the API response `r`: looks up
`r["entities"][self.id]`, raises `EntityMissingError` when the server marks
the entity missing — before any state is touched — and otherwise refreshes
the parts.  The result pairs the post-call state with the raised error;
every raise that precedes `_update_from_json` leaves the receiver
unchanged. -/
def Item.fetch (it : Item) (r : JVal) : Item × Option PyErr :=
  match r.index "entities" with
  | .error e => (it, some e)
  | .ok entities =>
    match it.id with
    | none => (it, some PyErr.keyError)
    | some i =>
      match entities.index i with
      | .error e => (it, some e)
      | .ok data =>
        match data.hasKey "missing" with
        | .error e => (it, some e)
        | .ok true => (it, some .entityMissing)
        | .ok false =>
          match it.updateFromJson data with
          | .error e => (it, some e)
          | .ok it' => (it', none)

/-- The patch-building loop of `Entity.save`: every dirty top-level key
asks its part to render current state plus dirty sub-keys.  All four parts
return a list (never `None`), so every dirty key contributes a fragment; a
dirty key naming no part would raise `KeyError` on `self._parts[key]`. -/
def Item.renderChanges (it : Item) : Except PyErr (List (String × JVal)) :=
  it.unsavedChanges.children.mapM fun ks =>
    match ks.1 with
    | "labels" => .ok (ks.1, langMapChanges it.labels ks.2.keys)
    | "descriptions" => .ok (ks.1, langMapChanges it.descriptions ks.2.keys)
    | "aliases" => .ok (ks.1, aliasesChanges it.aliases ks.2)
    | "claims" => .ok (ks.1, Claims.changesToJson it.claims ks.2.keys)
    | _ => .error .keyError

/-- `Entity.save` run against the API response `r`: renders the patch from
the dirty tree, then replaces all parts from `r["entity"]`.  Nothing ever
resets `_unsaved_changes`.  Returns the patch that was sent together with
the post-call state. -/
def Item.save (it : Item) (r : JVal) : Except PyErr (List (String × JVal) × Item) :=
  match it.renderChanges with
  | .error e => .error e
  | .ok changes =>
    match r.index "entity" with
    | .error e => .error e
    | .ok entityJ =>
      match it.updateFromJson entityJ with
      | .error e => .error e
      | .ok it' => .ok (changes, it')

/-- `Labels.__setitem__` at the item root: stores the value, then notifies
with the language as sub-key. -/
def Item.labelsSet (it : Item) (key value : String) : Item :=
  { it with labels := dictSet it.labels key value,
            unsavedChanges := Dirty.setdefaultPath ["labels", key] it.unsavedChanges }

/-- `Labels.__delitem__` at the item root: deletes from the store (a
missing key raises `KeyError` before any notification), then notifies with
the language as sub-key. -/
def Item.labelsDel (it : Item) (key : String) : Except PyErr Item :=
  match dictDel it.labels key with
  | .error e => .error e
  | .ok labels' =>
    .ok { it with
            labels := labels',
            unsavedChanges := Dirty.setdefaultPath ["labels", key] it.unsavedChanges }

/-- `Claims.remove` at the item root: removes the statement from its
property group, then — only when the statement carries a server-assigned
id — notifies with that id as sub-key.  A statement with no id records
nothing at all (this override never calls the base `_notify()`). -/
def Item.claimsRemove (it : Item) (elem : Statement) : Except PyErr Item :=
  let (g, st) := SnakSet.ddGet it.claims.store elem.p
  match listRemoveFirst g elem with
  | .error e => .error e
  | .ok g' =>
    let claims' : SnakSet Statement := ⟨it.claims.site, dictSet st elem.p g'⟩
    let dirty :=
      match elem.id with
      | some i => Dirty.setdefaultPath ["claims", i] it.unsavedChanges
      | none => it.unsavedChanges
    .ok { it with claims := claims', unsavedChanges := dirty }

/-- `Aliases.__getitem__`: a missing language is populated with a fresh
empty `AliasSet` stored under that language before being returned — a read
that mutates the mapping. -/
def Aliases.getitem (store : List (String × AliasSet)) (key : String) :
    AliasSet × List (String × AliasSet) :=
  match dictFind store key with
  | some a => (a, store)
  | none => (⟨key, []⟩, store ++ [(key, ⟨key, []⟩)])

/-- `lang in aliases`: `collections.abc.Mapping.__contains__` calls
`self[key]` and reports `False` only on `KeyError`; `Aliases.__getitem__`
never raises, so the test always answers `True` (inserting the key as a
side effect). -/
def Aliases.containsKey (store : List (String × AliasSet)) (key : String) :
    Bool × List (String × AliasSet) :=
  (true, (Aliases.getitem store key).2)

/-! ### Dictionary lemmas shared by the theorems below -/

theorem dictFind_dictSet_self {κ β : Type} [DecidableEq κ] (l : List (κ × β)) (k : κ) (v : β) :
    dictFind (dictSet l k v) k = some v := by
  induction l with
  | nil => simp [dictSet, dictFind]
  | cons hd tl ih =>
    obtain ⟨k', v'⟩ := hd
    by_cases h : k' = k
    · simp [dictSet, dictFind, h]
    · simp [dictSet, dictFind, h, ih]

theorem dictFind_eq_none_iff {κ β : Type} [DecidableEq κ] (l : List (κ × β)) (k : κ) :
    dictFind l k = none ↔ k ∉ l.map Prod.fst := by
  induction l with
  | nil => simp [dictFind]
  | cons hd tl ih =>
    obtain ⟨k', v'⟩ := hd
    by_cases h : k' = k
    · simp [dictFind, h]
    · simp [dictFind, h, ih, Ne.symm h]

theorem dictFind_mem_keys {κ β : Type} [DecidableEq κ] {l : List (κ × β)} {k : κ} {v : β}
    (h : dictFind l k = some v) : k ∈ l.map Prod.fst := by
  by_contra hk
  rw [← dictFind_eq_none_iff] at hk
  rw [h] at hk
  exact Option.noConfusion hk

theorem dictSet_keys {κ β : Type} [DecidableEq κ] (l : List (κ × β)) (k : κ) (v : β) :
    (dictSet l k v).map Prod.fst
      = l.map Prod.fst ++ (if (dictFind l k).isSome then [] else [k]) := by
  induction l with
  | nil => simp [dictSet, dictFind]
  | cons hd tl ih =>
    obtain ⟨k', v'⟩ := hd
    by_cases h : k' = k
    · simp [dictSet, dictFind, h]
    · simp [dictSet, dictFind, h, ih]

theorem dictSet_keys_nodup {κ β : Type} [DecidableEq κ] (l : List (κ × β)) (k : κ) (v : β)
    (h : (l.map Prod.fst).Nodup) : ((dictSet l k v).map Prod.fst).Nodup := by
  rw [dictSet_keys]
  by_cases hf : (dictFind l k).isSome
  · simpa [hf]
  · have hk : k ∉ l.map Prod.fst := by
      rw [← dictFind_eq_none_iff]
      exact Option.not_isSome_iff_eq_none.mp hf
    simp [hf, List.nodup_append, h, hk]

theorem dictDel_of_found {κ β : Type} [DecidableEq κ] (l : List (κ × β)) (k : κ)
    (h : (dictFind l k).isSome) :
    ∃ l', dictDel l k = .ok l'
      ∧ ((l.map Prod.fst).Nodup → dictFind l' k = none) := by
  induction l with
  | nil => simp [dictFind] at h
  | cons hd tl ih =>
    obtain ⟨k', v'⟩ := hd
    by_cases hk : k' = k
    · refine ⟨tl, by simp [dictDel, hk], fun hnd => ?_⟩
      rw [dictFind_eq_none_iff]
      subst hk
      rw [List.map_cons, List.nodup_cons] at hnd
      exact hnd.1
    · have htl : (dictFind tl k).isSome := by
        simpa [dictFind, hk] using h
      obtain ⟨l'', hdel, hfind⟩ := ih htl
      refine ⟨(k', v') :: l'', by simp [dictDel, hk, hdel], fun hnd => ?_⟩
      rw [List.map_cons, List.nodup_cons] at hnd
      have : dictFind l'' k = none := hfind hnd.2
      simp [dictFind, hk, this]

/-! ### C7: idempotent add on snak multi-maps -/

/-- C7: `SnakSet.add` is a no-op under value-equality.  When an equal
element is already stored under its property, the set is returned unchanged
— hence its length, iteration order and stored contents are unchanged — and
no change notification is emitted (the boolean is false). -/
theorem snak_set_add_idempotent {α : Type} [DecidableEq α] (pOf : α → EntityId)
    (s : SnakSet α) (elem : α) (h : elem ∈ s.group (pOf elem)) :
    SnakSet.add pOf s elem = (s, false) := by
  obtain ⟨g, hg, hmem⟩ : ∃ g, dictFind s.store (pOf elem) = some g ∧ elem ∈ g := by
    unfold SnakSet.group at h
    cases hf : dictFind s.store (pOf elem) with
    | none => rw [hf] at h; simp at h
    | some g => exact ⟨g, rfl, by rw [hf] at h; exact h⟩
  unfold SnakSet.add SnakSet.contains SnakSet.ddGet
  rw [hg]
  simp [hmem]

theorem snak_set_add_idempotent_witness :
    (Snak.novalue ⟨0, "P1"⟩) ∈
        (SnakSet.mk (α := Snak) 0 [(⟨0, "P1"⟩, [.novalue ⟨0, "P1"⟩])]).group
          (Snak.p (.novalue ⟨0, "P1"⟩))
    ∧ SnakSet.add Snak.p (SnakSet.mk 0 [(⟨0, "P1"⟩, [.novalue ⟨0, "P1"⟩])])
        (Snak.novalue ⟨0, "P1"⟩)
      = (SnakSet.mk 0 [(⟨0, "P1"⟩, [.novalue ⟨0, "P1"⟩])], false) :=
  ⟨by decide, snak_set_add_idempotent Snak.p _ _ (by decide)⟩

/-! ### C9: unknown discriminators are fatal parse errors -/

/-- C9: a datavalue whose wire "type" is none of the six supported kinds
fails with `UnsupportedValueType` (the dispatch-dict `KeyError`), and a
snak whose "snaktype" is none of value/novalue/somevalue fails with
`MalformedSnak` (the bare `ValueError`); the payload is never skipped — the
parser returns nothing but the error. -/
theorem unknown_discriminator_errors (site : Site) (j j' : JVal) (tag st : String)
    (hj : j.index "type" = .ok (.str tag))
    (htag : tag ∉ ["string", "wikibase-entityid", "monolingualtext",
                   "globecoordinate", "quantity", "time"])
    (hj' : j'.index "snaktype" = .ok (.str st))
    (hst : st ∉ ["value", "novalue", "somevalue"]) :
    valueFromJson site j = .error UnsupportedValueType
    ∧ PropertySnak.from_json site j' = .error MalformedSnak := by
  simp only [List.mem_cons, List.mem_singleton, not_or] at htag hst
  obtain ⟨h1, h2, h3, h4, h5, h6⟩ := htag
  obtain ⟨g1, g2, g3⟩ := hst
  constructor
  · unfold valueFromJson
    rw [hj]
    simp [h1, h2, h3, h4, h5, h6]
  · unfold PropertySnak.from_json
    rw [hj']
    simp [g1, g2, g3]

theorem unknown_discriminator_errors_witness :
    (JVal.obj [("type", .str "url")]).index "type" = .ok (.str "url")
    ∧ ("url" : String) ∉ ["string", "wikibase-entityid", "monolingualtext",
                          "globecoordinate", "quantity", "time"]
    ∧ (JVal.obj [("snaktype", .str "custom")]).index "snaktype" = .ok (.str "custom")
    ∧ ("custom" : String) ∉ ["value", "novalue", "somevalue"]
    ∧ valueFromJson 0 (.obj [("type", .str "url")]) = .error UnsupportedValueType
    ∧ PropertySnak.from_json 0 (.obj [("snaktype", .str "custom")]) = .error MalformedSnak := by
  refine ⟨rfl, by decide, rfl, by decide, ?_⟩
  exact unknown_discriminator_errors 0 (.obj [("type", .str "url")])
    (.obj [("snaktype", .str "custom")]) "url" "custom" rfl (by decide) rfl (by decide)

/-! ### C6: the by-property view -/

/-- C6: on a concrete snak set, the view obtained from `SnakSet.p` is live
for iteration and length — immediately reflecting an `add` on the parent —
and the parent's own membership test agrees, but every membership test on
the view itself raises `TypeError`, because `SnaksView.__contains__`
subscripts the parent `SnakSet` object, which has no `__getitem__`. -/
theorem snaks_view_contains_raises :
    (SnakSet.viewToList (SnakSet.mk (α := Snak) 0 [(⟨0, "P1"⟩, [.novalue ⟨0, "P1"⟩])])
        (SnakSet.pView (SnakSet.mk (α := Snak) 0 [(⟨0, "P1"⟩, [.novalue ⟨0, "P1"⟩])]) "P1")).1
      = [.novalue ⟨0, "P1"⟩]
    ∧ (SnakSet.viewLen (SnakSet.mk (α := Snak) 0 [(⟨0, "P1"⟩, [.novalue ⟨0, "P1"⟩])])
        (SnakSet.pView (SnakSet.mk (α := Snak) 0 [(⟨0, "P1"⟩, [.novalue ⟨0, "P1"⟩])]) "P1")).1
      = 1
    ∧ (SnakSet.contains Snak.p (SnakSet.mk 0 [(⟨0, "P1"⟩, [.novalue ⟨0, "P1"⟩])])
        (Snak.novalue ⟨0, "P1"⟩)).1 = true
    ∧ SnakSet.viewContains Snak.p (SnakSet.mk 0 [(⟨0, "P1"⟩, [.novalue ⟨0, "P1"⟩])])
        (SnakSet.pView (SnakSet.mk (α := Snak) 0 [(⟨0, "P1"⟩, [.novalue ⟨0, "P1"⟩])]) "P1")
        (Snak.novalue ⟨0, "P1"⟩)
      = .error .typeError
    ∧ (SnakSet.viewToList
        ((SnakSet.add Snak.p (SnakSet.mk 0 [(⟨0, "P1"⟩, [.novalue ⟨0, "P1"⟩])])
            (Snak.novalue ⟨0, "P2"⟩)).1)
        (⟨0, "P2"⟩ : EntityId)).1
      = [.novalue ⟨0, "P2"⟩] :=
  ⟨rfl, rfl, by decide, rfl, by decide⟩

/-! ### C10: alias lookup never raises and mutates the mapping -/

/-- C10: `aliases[lang]` never raises — a membership test is therefore
always true — and after any lookup the queried language is among the keys;
when the language was absent the lookup returns a fresh empty alias set,
stores it at the end of the mapping, and the length grows by one. -/
theorem aliases_getitem_total (store : List (String × AliasSet)) (key : String) :
    (Aliases.containsKey store key).1 = true
    ∧ key ∈ ((Aliases.getitem store key).2.map Prod.fst)
    ∧ (dictFind store key = none →
        Aliases.getitem store key = (⟨key, []⟩, store ++ [(key, ⟨key, []⟩)])
        ∧ ((Aliases.getitem store key).2).length = store.length + 1) := by
  refine ⟨rfl, ?_, fun habs => ?_⟩
  · unfold Aliases.getitem
    cases hf : dictFind store key with
    | none => simp
    | some a =>
      simpa using dictFind_mem_keys hf
  · unfold Aliases.getitem
    rw [habs]
    simp

theorem aliases_getitem_total_witness :
    dictFind ([] : List (String × AliasSet)) "de" = none
    ∧ ((Aliases.containsKey ([] : List (String × AliasSet)) "de").1 = true
       ∧ "de" ∈ ((Aliases.getitem ([] : List (String × AliasSet)) "de").2.map Prod.fst)
       ∧ (dictFind ([] : List (String × AliasSet)) "de" = none →
           Aliases.getitem ([] : List (String × AliasSet)) "de"
             = (⟨"de", []⟩, [] ++ [("de", ⟨"de", []⟩)])
           ∧ ((Aliases.getitem ([] : List (String × AliasSet)) "de").2).length
             = List.length ([] : List (String × AliasSet)) + 1)) :=
  ⟨rfl, aliases_getitem_total [] "de"⟩

/-! ### C1: the value round-trip, evaluated at a bounded quantity -/

/-- C1: evaluating the claimed round-trip at a Quantity with a non-null
upper bound: `Quantity.from_json` reads the misspelled key "uppperBound",
which `Quantity.to_json` never writes, so parsing the serialized value
yields `upper_bound = none` — a value different from the original — instead
of round-tripping. -/
theorem quantity_round_trip_loses_upper_bound :
    Quantity.from_json 0 (Quantity.to_json ⟨1, "1", some 2, none⟩)
      = .ok ⟨1, "1", none, none⟩
    ∧ (Quantity.mk 1 "1" none none) ≠ ⟨1, "1", some 2, none⟩ :=
  ⟨rfl, by decide⟩

/-! ### C8: fetch of a missing entity is atomic -/

/-- C8: when the get-entities response marks the entity missing, `fetch`
raises `EntityMissingError` before `_update_from_json` runs, so the
post-call state is the receiver unchanged: no part of the in-memory entity
(labels, descriptions, aliases, claims, cached data) is mutated. -/
theorem fetch_missing_atomic (it : Item) (r entities data : JVal) (i : String)
    (hid : it.id = some i)
    (hent : r.index "entities" = .ok entities)
    (hdata : entities.index i = .ok data)
    (hmissing : data.hasKey "missing" = .ok true) :
    Item.fetch it r = (it, some .entityMissing) := by
  simp [Item.fetch, hent, hid, hdata, hmissing]

/-- A concrete bound item used by the witnesses below. -/
def demoBoundItem : Item :=
  ⟨0, some "Q96680735", [], [], [], ⟨0, []⟩, none, .node []⟩

/-- A concrete get-entities response carrying a missing marker. -/
def demoMissingResp : JVal :=
  .obj [("entities",
         .obj [("Q96680735",
                .obj [("id", .str "Q96680735"), ("missing", .str "")])])]

theorem fetch_missing_atomic_witness :
    (JVal.obj [("id", .str "Q96680735"), ("missing", .str "")]).hasKey "missing" = .ok true
    ∧ Item.fetch demoBoundItem demoMissingResp = (demoBoundItem, some .entityMissing) :=
  ⟨rfl,
   fetch_missing_atomic demoBoundItem demoMissingResp
     (.obj [("Q96680735", .obj [("id", .str "Q96680735"), ("missing", .str "")])])
     (.obj [("id", .str "Q96680735"), ("missing", .str "")])
     "Q96680735" rfl rfl rfl rfl⟩

/-! ### C5: the Statement constructor and the references argument -/

/-- Full characterization of `Statement.__init__` when `references` is not
`None`: the constructor hands `qualifiers` to `References.from_iterable`,
so the outcome depends only on the qualifiers argument and the `references`
payload is never read. -/
theorem statement_init_some_refs (site : Site) (ms : Snak) (rank : Rank)
    (qualifiers : Option (List Snak)) (refs : List ReferenceRecord) (id : Option String) :
    Statement.init site ms rank qualifiers (some refs) id
      = match qualifiers with
        | none => .error .typeError
        | some [] => .ok ⟨site, id, ms, rank, ⟨site, []⟩, []⟩
        | some (_ :: _) => .error .nameError := by
  cases qualifiers with
  | none => rfl
  | some l =>
    cases l with
    | nil => rfl
    | cons q qs => rfl

/-- C5: the Statement constructor never builds its references from the
references argument.  With a non-None references argument, construction
raises `TypeError` when qualifiers is `None` and `NameError` when
qualifiers is a non-empty iterable (the loop body's unbound `self`); the
only surviving case is an empty qualifiers iterable, and even then the
statement carries no reference records — so no Statement with
caller-supplied references can be constructed, including via
`Wikibase.claim`. -/
theorem statement_ignores_references_arg (site : Site) (ms : Snak) (rank : Rank)
    (qualifiers : Option (List Snak)) (refs : List ReferenceRecord) (id : Option String)
    (p : String) (v : SnakArg) (rankO : Option Rank) :
    (qualifiers = none →
        Statement.init site ms rank qualifiers (some refs) id = .error .typeError)
    ∧ (∀ q qs, qualifiers = some (q :: qs) →
        Statement.init site ms rank qualifiers (some refs) id = .error .nameError)
    ∧ (∀ st, Statement.init site ms rank qualifiers (some refs) id = .ok st →
        st.references = [] ∧ qualifiers = some [])
    ∧ (∀ st, Wikibase.claim site p v rankO qualifiers (some refs) = .ok st →
        st.references = []) := by
  refine ⟨?_, ?_, ?_, ?_⟩
  · rintro rfl
    rfl
  · rintro q qs rfl
    rfl
  · intro st h
    rw [statement_init_some_refs] at h
    cases qualifiers with
    | none => simp at h
    | some l =>
      cases l with
      | nil =>
        refine ⟨?_, rfl⟩
        simp only [Except.ok.injEq] at h
        rw [← h]
      | cons q qs => simp at h
  · intro st h
    unfold Wikibase.claim at h
    cases hsnak : Wikibase.snak site p v with
    | error e =>
      rw [hsnak] at h
      simp at h
    | ok msnak =>
      rw [hsnak] at h
      dsimp only at h
      rw [statement_init_some_refs] at h
      cases qualifiers with
      | none => simp at h
      | some l =>
        cases l with
        | nil =>
          simp only [Except.ok.injEq] at h
          rw [← h]
        | cons q qs => simp at h

theorem statement_ignores_references_arg_witness :
    Statement.init 0 (.novalue ⟨0, "P1"⟩) .normal none (some []) none = .error .typeError
    ∧ Statement.init 0 (.novalue ⟨0, "P1"⟩) .normal
        (some [.novalue ⟨0, "P1"⟩]) (some []) none = .error .nameError := by
  constructor
  · exact (statement_ignores_references_arg 0 (.novalue ⟨0, "P1"⟩) .normal none []
      none "P1" .noValueSentinel none).1 rfl
  · exact (statement_ignores_references_arg 0 (.novalue ⟨0, "P1"⟩) .normal
      (some [.novalue ⟨0, "P1"⟩]) [] none "P1" .noValueSentinel none).2.1 _ _ rfl

/-! ### C3: label patches render from current state only -/

/-- Rendering a singleton dirty-language set when the language is present
in the label store: one update entry. -/
theorem langMapChanges_present {store : List (String × String)} {lang v : String}
    (hv : dictFind store lang = some v) :
    langMapChanges store [lang] = .arr [.obj [("language", .str lang), ("value", .str v)]] := by
  unfold langMapChanges
  simp [hv]

/-- Rendering a singleton dirty-language set when the language is absent
from the label store: one removal entry. -/
theorem langMapChanges_absent {store : List (String × String)} {lang : String}
    (hv : dictFind store lang = none) :
    langMapChanges store [lang] = .arr [.obj [("language", .str lang), ("remove", .str "")]] := by
  unfold langMapChanges
  simp [hv]

/-- The save loop on an item whose only dirty marker is one label
language renders exactly the labels fragment. -/
theorem renderChanges_labels_single (it : Item) (lang : String)
    (hdirty : it.unsavedChanges = .node [("labels", .node [(lang, .node [])])]) :
    Item.renderChanges it = .ok [("labels", langMapChanges it.labels [lang])] := by
  unfold Item.renderChanges
  rw [hdirty]
  rfl

/-- Marking a label language dirty in a fresh session. -/
theorem setdefault_labels_fresh (lang : String) :
    Dirty.setdefaultPath ["labels", lang] (.node [])
      = .node [("labels", .node [(lang, .node [])])] := rfl

/-- Marking the same label language dirty a second time changes nothing. -/
theorem setdefault_labels_again (lang : String) :
    Dirty.setdefaultPath ["labels", lang] (.node [("labels", .node [(lang, .node [])])])
      = .node [("labels", .node [(lang, .node [])])] := by
  simp [Dirty.setdefaultPath, dictFind, dictSet]

/-- A successful label deletion, made explicit. -/
theorem labelsDel_ok (it : Item) (lang : String) (l' : List (String × String))
    (hdel : dictDel it.labels lang = .ok l') :
    it.labelsDel lang
      = .ok { it with labels := l',
                      unsavedChanges :=
                        Dirty.setdefaultPath ["labels", lang] it.unsavedChanges } := by
  unfold Item.labelsDel
  rw [hdel]

/-- C3: label patch fragments are computed from current state only.
Starting from a fresh edit session: setting a label and saving renders
exactly the update entry for that language; deleting an existing label and
saving renders exactly the removal entry; setting and then deleting the
same language before one save renders the removal entry — the final state
wins, not the mutation history. -/
theorem labels_render_current_state (it : Item) (lang x : String)
    (hdirty : it.unsavedChanges = .node [])
    (hnodup : (it.labels.map Prod.fst).Nodup) :
    Item.renderChanges (it.labelsSet lang x)
      = .ok [("labels", .arr [.obj [("language", .str lang), ("value", .str x)]])]
    ∧ ((dictFind it.labels lang).isSome →
        ∃ it', it.labelsDel lang = .ok it'
          ∧ Item.renderChanges it'
            = .ok [("labels", .arr [.obj [("language", .str lang), ("remove", .str "")]])])
    ∧ (∃ it', (it.labelsSet lang x).labelsDel lang = .ok it'
        ∧ Item.renderChanges it'
          = .ok [("labels", .arr [.obj [("language", .str lang), ("remove", .str "")]])]) := by
  refine ⟨?_, fun hsome => ?_, ?_⟩
  · rw [renderChanges_labels_single (it.labelsSet lang x) lang
      (by dsimp only [Item.labelsSet]; rw [hdirty]; rfl)]
    dsimp only [Item.labelsSet]
    rw [langMapChanges_present (dictFind_dictSet_self it.labels lang x)]
  · obtain ⟨l', hdel, hnone⟩ := dictDel_of_found it.labels lang hsome
    refine ⟨_, labelsDel_ok it lang l' hdel, ?_⟩
    rw [renderChanges_labels_single _ lang (by dsimp only; rw [hdirty]; rfl)]
    dsimp only
    rw [langMapChanges_absent (hnone hnodup)]
  · have hfound : (dictFind (dictSet it.labels lang x) lang).isSome := by
      rw [dictFind_dictSet_self]
      rfl
    obtain ⟨l', hdel, hnone⟩ := dictDel_of_found (dictSet it.labels lang x) lang hfound
    have hdel2 : dictDel (it.labelsSet lang x).labels lang = .ok l' := by
      dsimp only [Item.labelsSet]
      exact hdel
    refine ⟨_, labelsDel_ok (it.labelsSet lang x) lang l' hdel2, ?_⟩
    rw [renderChanges_labels_single _ lang
      (by dsimp only [Item.labelsSet]; rw [hdirty, setdefault_labels_fresh,
            setdefault_labels_again])]
    dsimp only
    rw [langMapChanges_absent (hnone (dictSet_keys_nodup it.labels lang x hnodup))]

/-- A concrete item with one existing French label and no pending edits. -/
def demoLabelItem : Item :=
  ⟨0, some "Q204828", [("fr", "ancien")], [], [], ⟨0, []⟩, none, .node []⟩

theorem labels_render_current_state_witness :
    demoLabelItem.unsavedChanges = .node []
    ∧ (demoLabelItem.labels.map Prod.fst).Nodup
    ∧ (Item.renderChanges (demoLabelItem.labelsSet "fr" "X")
        = .ok [("labels", .arr [.obj [("language", .str "fr"), ("value", .str "X")]])]
       ∧ ((dictFind demoLabelItem.labels "fr").isSome →
           ∃ it', demoLabelItem.labelsDel "fr" = .ok it'
             ∧ Item.renderChanges it'
               = .ok [("labels", .arr [.obj [("language", .str "fr"), ("remove", .str "")]])])
       ∧ (∃ it', (demoLabelItem.labelsSet "fr" "X").labelsDel "fr" = .ok it'
           ∧ Item.renderChanges it'
             = .ok [("labels", .arr [.obj [("language", .str "fr"), ("remove", .str "")]])])) :=
  ⟨rfl, by decide, labels_render_current_state demoLabelItem "fr" "X" rfl (by decide)⟩

/-! ### C2: fetch and save never clear the dirty-marker tree -/

/-- `_update_from_json` leaves `_unsaved_changes` untouched. -/
theorem updateFromJson_unsaved (it : Item) (d : JVal) (it' : Item)
    (h : it.updateFromJson d = .ok it') : it'.unsavedChanges = it.unsavedChanges := by
  unfold Item.updateFromJson at h
  repeat' split at h
  all_goals first
    | exact Except.noConfusion h
    | (simp only [Except.ok.injEq] at h
       subst h
       rfl)

/-- `fetch` leaves `_unsaved_changes` untouched on every path. -/
theorem fetch_unsaved (it : Item) (r : JVal) :
    (Item.fetch it r).1.unsavedChanges = it.unsavedChanges := by
  unfold Item.fetch
  repeat' split
  all_goals first
    | rfl
    | exact updateFromJson_unsaved _ _ _ (by assumption)

/-- `save` leaves `_unsaved_changes` untouched on the success path. -/
theorem save_unsaved (it : Item) (r : JVal) (out : List (String × JVal)) (it' : Item)
    (hsave : Item.save it r = .ok (out, it')) :
    it'.unsavedChanges = it.unsavedChanges := by
  unfold Item.save at hsave
  repeat' split at hsave
  all_goals first
    | exact Except.noConfusion hsave
    | (simp only [Except.ok.injEq, Prod.mk.injEq] at hsave
       obtain ⟨h1, h2⟩ := hsave
       subst h2
       exact updateFromJson_unsaved _ _ _ (by assumption))

/-- C2 amended: neither `fetch` nor a successful `save` clears the
dirty-marker tree — `_unsaved_changes` after the call is exactly what it
was before, so an immediately following save re-renders patch fragments
from the refreshed state and the old markers rather than emitting an empty
patch. -/
theorem fetch_save_preserve_dirty (it : Item) (r : JVal) (out : List (String × JVal))
    (it' : Item) (hsave : Item.save it r = .ok (out, it')) :
    (Item.fetch it r).1.unsavedChanges = it.unsavedChanges
    ∧ it'.unsavedChanges = it.unsavedChanges :=
  ⟨fetch_unsaved it r, save_unsaved it r out it' hsave⟩

/-- The item of the C2 scenario: a fresh bound item after
`item.labels["fr"] = "X"`. -/
def demoSaveItem : Item :=
  Item.labelsSet ⟨0, some "Q1", [], [], [], ⟨0, []⟩, none, .node []⟩ "fr" "X"

/-- The canonical entity JSON the server returns for the save. -/
def demoSaveEntityJson : JVal :=
  .obj [("labels", .obj [("fr", .obj [("language", .str "fr"), ("value", .str "X")])]),
        ("descriptions", .obj []),
        ("aliases", .obj []),
        ("claims", .obj [])]

/-- The wbeditentity response wrapping the canonical entity. -/
def demoSaveResp : JVal :=
  .obj [("entity", demoSaveEntityJson)]

/-- The patch the save sends. -/
def demoSavePatch : List (String × JVal) :=
  [("labels", .arr [.obj [("language", .str "fr"), ("value", .str "X")]])]

/-- The state after the save: parts replaced from the response, dirty tree
still carrying the label marker. -/
def demoSavedItem : Item :=
  ⟨0, some "Q1", [("fr", "X")], [], [], ⟨0, []⟩, some demoSaveEntityJson,
   .node [("labels", .node [("fr", .node [])])]⟩

/-- C2 counterexample: after a successful save the unsaved-changes tree is
not empty — the pre-save label marker persists — and an immediately
following save with no new mutations emits the same labels fragment again
instead of an empty patch. -/
theorem save_keeps_dirty_markers_cex :
    ((Item.save demoSaveItem demoSaveResp).map fun res => res.2.unsavedChanges.keys)
      = .ok ["labels"]
    ∧ (((Item.save demoSaveItem demoSaveResp).bind fun res =>
          Item.save res.2 demoSaveResp).map Prod.fst)
      = .ok [("labels", .arr [.obj [("language", .str "fr"), ("value", .str "X")]])]
    ∧ (["labels"] : List String) ≠ [] :=
  ⟨rfl, rfl, by decide⟩

theorem fetch_save_preserve_dirty_witness :
    Item.save demoSaveItem demoSaveResp = .ok (demoSavePatch, demoSavedItem)
    ∧ ((Item.fetch demoSaveItem demoSaveResp).1.unsavedChanges = demoSaveItem.unsavedChanges
       ∧ demoSavedItem.unsavedChanges = demoSaveItem.unsavedChanges) :=
  ⟨rfl, fetch_save_preserve_dirty demoSaveItem demoSaveResp demoSavePatch demoSavedItem rfl⟩

/-! ### C4: removing statements schedules exactly the right patch entry -/

/-- With duplicate-free keys, a stored binding is what `dictFind` finds. -/
theorem dictFind_of_mem_nodup {κ β : Type} [DecidableEq κ] {l : List (κ × β)} {kv : κ × β}
    (hnd : (l.map Prod.fst).Nodup) (h : kv ∈ l) : dictFind l kv.1 = some kv.2 := by
  induction l with
  | nil => simp at h
  | cons hd tl ih =>
    rw [List.map_cons, List.nodup_cons] at hnd
    rcases List.mem_cons.mp h with rfl | h1
    · simp [dictFind]
    · have hne : hd.1 ≠ kv.1 := by
        intro he
        apply hnd.1
        rw [he]
        exact List.mem_map_of_mem Prod.fst h1
      simp [dictFind, hne, ih hnd.2 h1]

/-- A member of a well-formed snak multi-map is found in the group of its
own property. -/
theorem mem_toList_find {α : Type} [DecidableEq α] (pOf : α → EntityId) (s : SnakSet α)
    (x : α)
    (hnd : (s.store.map Prod.fst).Nodup)
    (hp : ∀ kg ∈ s.store, ∀ c ∈ kg.2, pOf c = kg.1)
    (hmem : x ∈ SnakSet.toList s) :
    ∃ g, dictFind s.store (pOf x) = some g ∧ x ∈ g := by
  unfold SnakSet.toList at hmem
  rw [List.mem_flatten] at hmem
  obtain ⟨gl, hgl, hx⟩ := hmem
  rw [List.mem_map] at hgl
  obtain ⟨kg, hkg, rfl⟩ := hgl
  refine ⟨kg.2, ?_, hx⟩
  rw [hp kg hkg x hx]
  exact dictFind_of_mem_nodup hnd hkg

/-- `list.remove` of a member removes exactly the first occurrence. -/
theorem listRemoveFirst_of_mem {α : Type} [DecidableEq α] {g : List α} {x : α}
    (h : x ∈ g) :
    ∃ g1 g2, g = g1 ++ x :: g2 ∧ listRemoveFirst g x = .ok (g1 ++ g2) := by
  induction g with
  | nil => simp at h
  | cons a rest ih =>
    by_cases hax : a = x
    · subst hax
      exact ⟨[], rest, rfl, by simp [listRemoveFirst]⟩
    · have hx : x ∈ rest := by
        rcases List.mem_cons.mp h with h1 | h1
        · exact absurd h1.symm hax
        · exact h1
      obtain ⟨g1, g2, hg, hr⟩ := ih hx
      refine ⟨a :: g1, g2, by rw [hg]; rfl, ?_⟩
      simp [listRemoveFirst, hax, hr]

/-- Replacing a group by its removal result splits the flattened iteration
order around the removed element. -/
theorem toList_remove_decomp {α : Type} [DecidableEq α] (l : List (EntityId × List α))
    (k : EntityId) (g g' : List α) (x : α)
    (hfind : dictFind l k = some g)
    (hg : ∃ p q, g = p ++ x :: q ∧ g' = p ++ q) :
    ∃ A B, (l.map Prod.snd).flatten = A ++ x :: B
      ∧ (((dictSet l k g').map Prod.snd).flatten = A ++ B) := by
  induction l with
  | nil => simp [dictFind] at hfind
  | cons hd tl ih =>
    obtain ⟨k1, g1⟩ := hd
    by_cases hk : k1 = k
    · subst hk
      have hg1 : g1 = g := by
        simpa [dictFind] using hfind
      subst hg1
      obtain ⟨p, q, hgpq, hg'⟩ := hg
      subst hgpq
      subst hg'
      refine ⟨p, q ++ (tl.map Prod.snd).flatten, ?_, ?_⟩
      · simp
      · simp [dictSet]
    · have htl : dictFind tl k = some g := by
        simpa [dictFind, hk] using hfind
      obtain ⟨A, B, hA, hB⟩ := ih htl
      refine ⟨g1 ++ A, B, ?_, ?_⟩
      · simp [hA]
      · simp [dictSet, hk, hB]

/-- The rendering loop when no live statement matches any dirty id: the
id-less statements are emitted in full, the dirty ids survive untouched. -/
theorem claimsFold_no_match (cs : List Statement) (ids : List String)
    (h : ∀ c ∈ cs, ∀ j, c.id = some j → j ∉ ids) :
    claimsFold cs ids = ((cs.filter fun c => c.id.isNone).map Statement.to_json, ids) := by
  induction cs with
  | nil => rfl
  | cons c rest ih =>
    have hrest := ih fun c2 hc2 => h c2 (List.mem_cons_of_mem c hc2)
    cases hid : c.id with
    | none =>
      simp [claimsFold, hid, hrest, List.filter_cons, Option.isNone]
    | some j =>
      have hj : j ∉ ids := h c (List.mem_cons_self c rest) j hid
      simp [claimsFold, hid, hj, hrest, List.filter_cons, Option.isNone]

/-- The save loop on an item whose only dirty marker is one claim id
renders exactly the claims fragment. -/
theorem renderChanges_claims_single (it : Item) (i : String)
    (hdirty : it.unsavedChanges = .node [("claims", .node [(i, .node [])])]) :
    Item.renderChanges it = .ok [("claims", Claims.changesToJson it.claims [i])] := by
  unfold Item.renderChanges
  rw [hdirty]
  rfl

/-- The save loop on an item with no dirty markers renders an empty patch. -/
theorem renderChanges_empty (it : Item) (hdirty : it.unsavedChanges = .node []) :
    Item.renderChanges it = .ok [] := by
  unfold Item.renderChanges
  rw [hdirty]
  rfl

/-- C4: starting from a fresh edit session on a well-formed claims store,
removing a statement with a server-assigned id records exactly that id as
dirty, and the next save's claims fragment consists of the full emissions
of the id-less statements plus exactly one removal entry for the removed
id; removing a statement with no id records nothing and the next save's
claims fragment contains no entry for it (no claims fragment at all). -/
theorem claims_remove_schedules (it : Item) (st : Statement) (i : String)
    (hwfk : (it.claims.store.map Prod.fst).Nodup)
    (hwfp : ∀ kg ∈ it.claims.store, ∀ c ∈ kg.2, Statement.p c = kg.1)
    (hdirty : it.unsavedChanges = .node [])
    (hmem : st ∈ SnakSet.toList it.claims) :
    (st.id = some i → i ≠ "new" → (SnakSet.toList it.claims).count st = 1 →
      (∀ c ∈ SnakSet.toList it.claims, c ≠ st → c.id ≠ some i) →
      ∃ it', Item.claimsRemove it st = .ok it'
        ∧ it'.unsavedChanges = .node [("claims", .node [(i, .node [])])]
        ∧ Item.renderChanges it'
          = .ok [("claims", .arr
              ((((SnakSet.toList it'.claims).filter fun c => c.id.isNone).map
                  Statement.to_json)
               ++ [.obj [("id", .str i), ("remove", .str "")]]))])
    ∧ (st.id = none →
      ∃ it', Item.claimsRemove it st = .ok it'
        ∧ it'.unsavedChanges = it.unsavedChanges
        ∧ Item.renderChanges it' = .ok []) := by
  obtain ⟨g, hfind, hgmem⟩ := mem_toList_find Statement.p it.claims st hwfk hwfp hmem
  obtain ⟨g1, g2, hgdecomp, hrem⟩ := listRemoveFirst_of_mem hgmem
  have hddget : SnakSet.ddGet it.claims.store st.p = (g, it.claims.store) := by
    unfold SnakSet.ddGet
    rw [hfind]
  constructor
  · intro hid hinew hcount hothers
    obtain ⟨A, B, hA, hB⟩ :=
      toList_remove_decomp it.claims.store st.p g (g1 ++ g2) st hfind ⟨g1, g2, hgdecomp, rfl⟩
    have hAB : SnakSet.toList it.claims = A ++ st :: B := hA
    have hcount2 : A.count st + B.count st = 0 := by
      rw [hAB] at hcount
      simp [List.count_append, List.count_cons] at hcount
      omega
    have hstA : st ∉ A := by
      rw [← List.count_eq_zero]
      omega
    have hstB : st ∉ B := by
      rw [← List.count_eq_zero]
      omega
    refine ⟨{ it with
                claims := ⟨it.claims.site, dictSet it.claims.store st.p (g1 ++ g2)⟩,
                unsavedChanges := Dirty.setdefaultPath ["claims", i] it.unsavedChanges },
            ?_, ?_, ?_⟩
    · unfold Item.claimsRemove
      rw [hddget]
      dsimp only
      rw [hrem, hid]
    · dsimp only
      rw [hdirty]
      rfl
    · rw [renderChanges_claims_single _ i (by dsimp only; rw [hdirty]; rfl)]
      dsimp only
      have hnomatch : ∀ c ∈ SnakSet.toList
          (SnakSet.mk (α := Statement) it.claims.site
            (dictSet it.claims.store st.p (g1 ++ g2))),
          ∀ j, c.id = some j → j ∉ [i] := by
        intro c hc j hcid hji
        have hcAB : c ∈ A ++ B := by
          have : SnakSet.toList (SnakSet.mk (α := Statement) it.claims.site
              (dictSet it.claims.store st.p (g1 ++ g2))) = A ++ B := hB
          rw [this] at hc
          exact hc
        have hcorig : c ∈ SnakSet.toList it.claims := by
          rw [hAB]
          rcases List.mem_append.mp hcAB with h1 | h1
          · exact List.mem_append_left _ h1
          · exact List.mem_append_right _ (List.mem_cons_of_mem st h1)
        have hcne : c ≠ st := by
          intro he
          subst he
          rcases List.mem_append.mp hcAB with h1 | h1
          · exact hstA h1
          · exact hstB h1
        have hji2 : j = i := by
          simpa using hji
        subst hji2
        exact hothers c hcorig hcne (by rw [hcid])
      unfold Claims.changesToJson
      have hfil : (([i] : List String).filter fun k => k ≠ "new") = [i] := by
        simp [hinew]
      rw [hfil]
      dsimp only
      rw [claimsFold_no_match _ _ hnomatch]
      simp
  · intro hidnone
    refine ⟨{ it with
                claims := ⟨it.claims.site, dictSet it.claims.store st.p (g1 ++ g2)⟩,
                unsavedChanges := it.unsavedChanges },
            ?_, rfl, ?_⟩
    · unfold Item.claimsRemove
      rw [hddget]
      dsimp only
      rw [hrem, hidnone]
    · exact renderChanges_empty _ (by dsimp only; exact hdirty)

/-- A statement with a server-assigned id, for the C4 witness. -/
def demoStatement : Statement :=
  ⟨0, some "Q1$x", .val ⟨0, "P95180"⟩ (.str "foobar"), .normal, ⟨0, []⟩, []⟩

/-- A not-yet-saved statement under the same property. -/
def demoNewStatement : Statement :=
  ⟨0, none, .val ⟨0, "P95180"⟩ (.str "draft"), .normal, ⟨0, []⟩, []⟩

/-- A fresh item holding both statements under P95180. -/
def demoClaimsItem : Item :=
  ⟨0, some "Q1", [], [], [],
   ⟨0, [(⟨0, "P95180"⟩, [demoStatement, demoNewStatement])]⟩, none, .node []⟩

theorem claims_remove_schedules_witness :
    (demoClaimsItem.claims.store.map Prod.fst).Nodup
    ∧ demoStatement ∈ SnakSet.toList demoClaimsItem.claims
    ∧ ((demoStatement.id = some "Q1$x" → "Q1$x" ≠ "new" →
        (SnakSet.toList demoClaimsItem.claims).count demoStatement = 1 →
        (∀ c ∈ SnakSet.toList demoClaimsItem.claims, c ≠ demoStatement →
          c.id ≠ some "Q1$x") →
        ∃ it', Item.claimsRemove demoClaimsItem demoStatement = .ok it'
          ∧ it'.unsavedChanges = .node [("claims", .node [("Q1$x", .node [])])]
          ∧ Item.renderChanges it'
            = .ok [("claims", .arr
                ((((SnakSet.toList it'.claims).filter fun c => c.id.isNone).map
                    Statement.to_json)
                 ++ [.obj [("id", .str "Q1$x"), ("remove", .str "")]]))])
       ∧ (demoStatement.id = none →
        ∃ it', Item.claimsRemove demoClaimsItem demoStatement = .ok it'
          ∧ it'.unsavedChanges = demoClaimsItem.unsavedChanges
          ∧ Item.renderChanges it' = .ok [])) :=
  ⟨by decide, by decide,
   claims_remove_schedules demoClaimsItem demoStatement "Q1$x"
     (by decide) (by decide) rfl (by decide)⟩

end Wbinteract
